import Mathlib

/-!
Shallow embedding of `src/module.js` (the Module base class of
my_helloworld_node_package) together with proofs about the claims of the
specification.  The embedding follows the source file: pure helpers become
Lean functions, the mutable `this` object becomes an explicit `MState`
record that the operations thread through, promise chains become
`Except Err` results together with the state reached when the chain
settles, and the collaborator calls plus lifecycle callbacks are recorded
in an event trace.  Null dereferences (`this.el.classList` on a missing
element and so on) are modelled as thrown `Err.typeError` values, exactly
where the source would raise a `TypeError`.
-/

namespace ModuleJs

/-- DOM nodes are identified by an id; identity is all the lifecycle code
observes about a mounted node. -/
abbrev Node := Nat

/-- Model of `Element.classList`: an ordered list of class names without
duplicates being relevant; `add` appends when absent, `remove` deletes all
occurrences, `contains` is membership, as in the DOMTokenList contract. -/
def classListAdd (cs : List String) (c : String) : List String :=
  if cs.contains c then cs else cs ++ [c]

def classListRemove (cs : List String) (c : String) : List String :=
  cs.filter (fun x => x ≠ c)

/-- The part of a DOM element the Module code reads and writes: its class
list and its list of (appended) child nodes. -/
structure Elem where
  classes : List String
  children : List Node
deriving DecidableEq, Repr

def addClass (e : Elem) (c : String) : Elem :=
  { e with classes := classListAdd e.classes c }

def removeClass (e : Elem) (c : String) : Elem :=
  { e with classes := classListRemove e.classes c }

/-- Errors: `error s` models a JavaScript `new Error(s)` or an injected
collaborator failure; `typeError s` models the `TypeError` raised by
dereferencing a property of `null`/`undefined`. -/
inductive Err where
  | error (msg : String)
  | typeError (msg : String)
deriving DecidableEq, Repr

/-- TypeError raised by `this.el.classList` when `this.el` is null
(lines 257, 412 of the source). -/
def nullClassListErr : Err := Err.typeError "Cannot read classList of null"

/-- TypeError raised by `this.el.appendChild` when `this.el` is null
(line 165 of the source). -/
def nullAppendChildErr : Err := Err.typeError "Cannot read appendChild of null"

/-- TypeError raised by `this.el.parentNode` when `this.el` is null
(line 391 of the source). -/
def nullParentNodeErr : Err := Err.typeError "Cannot read parentNode of null"

/-- The `options.template` value as the lifecycle consumes it:
`none` is the falsy default `""` (no template), `htmlTemplate` an
HTMLTemplateElement whose content holds the given nodes, `element` an
already realized HTMLElement, `urlString` a non-empty string identifier
resolved by the template-loading collaborator. -/
inductive Template where
  | none
  | htmlTemplate (nodes : List Node)
  | element (n : Node)
  | urlString (s : String)
deriving DecidableEq, Repr

/-- The `options.data` value: `value` is any non-string datum (the default
`null` included), which `fetchData` resolves as-is without the
collaborator; `url` is a string routed to `ResourceManager.fetchData`. -/
inductive DataOpt where
  | value
  | url (s : String)
deriving DecidableEq, Repr

/-- Load status enum of the source: `notLoaded`, `loading`, `loaded`. -/
inductive LoadStatus where
  | notLoaded
  | loading
  | loaded
deriving DecidableEq, Repr

/-- The effective (merged) configuration record as the lifecycle code
reads it.  The callback options are modelled as inert: their invocation is
recorded in the event trace. -/
structure Options where
  loadedClass : String
  activeClass : String
  disabledClass : String
  errorClass : String
  styles : List String
  template : Template
  data : DataOpt
  requestOptions : Option String
deriving DecidableEq, Repr

/-- The default option values of the constructor (lines 96 to 111),
already in the typed form the lifecycle consumes. -/
def defaultOptions : Options :=
  { loadedClass := "module-loaded"
    activeClass := "module-active"
    disabledClass := "module-disabled"
    errorClass := "module-error"
    styles := []
    template := Template.none
    data := DataOpt.value
    requestOptions := none }

/-- Observable events of a run: collaborator steps of `load`, lifecycle
callback invocations, and the `console.error` log of the constructor. -/
inductive Event where
  | consoleError (msg : String)
  | stylesLoad (styles : List String)
  | dataFetch (d : DataOpt)
  | templateResolve (t : Template)
  | mountNodes (ns : List Node)
  | callback (name : String)
  | onErrorCb (e : Err)
deriving DecidableEq, Repr

/-- External collaborators (`ResourceManager`): the style loader, the data
fetcher and the template loader, each allowed to fail. -/
structure Env where
  loadCss : List String → Except Err Unit
  fetchData : String → Option String → Except Err Unit
  loadTemplate : String → Except Err (List Node)

/-- The mutable fields of one Module instance (`this` without the child
map): element handle, merged options, lifecycle flags, the originally
captured disabled/error markers, the mounted-node list `_elChildren` and
the load status. `errored` and `disabled` start as JavaScript `undefined`,
which the code only ever reads for truthiness, so they are modelled as
`false`. -/
structure MState where
  el : Option Elem
  options : Options
  active : Bool
  loaded : Bool
  errored : Bool
  disabled : Bool
  origDisabled : Bool
  origError : Bool
  elChildren : List Node
  loadStatus : LoadStatus
deriving DecidableEq, Repr

/-- A Module is its own state together with the `subModules` map (an
ordered association list, matching for-in insertion order). -/
inductive Module where
  | node : MState → List (String × Module) → Module

def Module.state : Module → MState
  | .node s _ => s

def Module.subs : Module → List (String × Module)
  | .node _ c => c

/-- Lines 302 to 310: `show()` adds the active class when the element
exists, sets `active`, fires `onShow` and waits for the transition. -/
def MState.show (s : MState) : MState × List Event :=
  ({ s with el := s.el.map (fun e => addClass e s.options.activeClass), active := true },
   [Event.callback "onShow"])

/-- Lines 316 to 324: `hide()` removes the active class when the element
exists, clears `active`, fires `onHide` and waits for the transition. -/
def MState.hide (s : MState) : MState × List Event :=
  ({ s with el := s.el.map (fun e => removeClass e s.options.activeClass), active := false },
   [Event.callback "onHide"])

/-- Lines 273 to 281: `enable()` removes the disabled class when the
element exists, clears `disabled`, fires `onEnable`. -/
def MState.enable (s : MState) : MState × List Event :=
  ({ s with el := s.el.map (fun e => removeClass e s.options.disabledClass), disabled := false },
   [Event.callback "onEnable"])

/-- Lines 287 to 296: `disable()` adds the disabled class when the element
exists, sets `disabled`, fires `onDisable`. -/
def MState.disable (s : MState) : MState × List Event :=
  ({ s with el := s.el.map (fun e => addClass e s.options.disabledClass), disabled := true },
   [Event.callback "onDisable"])

/-- Lines 254 to 267: `error(err)`.  The default error value is
`new Error()`.  The very first statement dereferences
`this.el.classList`, so on a missing element the call throws a TypeError
before any state change; otherwise the error class is added, `errored`
set, `loaded` cleared, `loadStatus` reset, `onError` fired with the error
value, and the settled result is that error value. -/
def MState.errorOp (s : MState) (err : Option Err) : MState × Except Err Err × List Event :=
  let e := err.getD (Err.error "")
  match s.el with
  | Option.none => (s, Except.error nullClassListErr, [])
  | Option.some el0 =>
    ({ s with el := Option.some (addClass el0 s.options.errorClass),
              errored := true, loaded := false, loadStatus := LoadStatus.notLoaded },
     Except.ok e, [Event.onErrorCb e])

/-- Step 4 of `load` (lines 192 to 197): a non-string datum resolves
as-is; a string is routed to the data-fetching collaborator with the
configured request options. -/
def fetchDataStep (env : Env) (d : DataOpt) (reqOpts : Option String) : Except Err Unit :=
  match d with
  | DataOpt.value => Except.ok ()
  | DataOpt.url u => env.fetchData u reqOpts

/-- Step 5 of `load` (lines 212 to 236): a falsy template resolves with no
nodes, a template element yields its imported content nodes, a realized
element yields itself wrapped in a fragment, and a string identifier is
resolved by the template-loading collaborator. -/
def getTemplateStep (env : Env) (t : Template) : Except Err (List Node) :=
  match t with
  | Template.none => Except.ok []
  | Template.htmlTemplate ns => Except.ok ns
  | Template.element n => Except.ok [n]
  | Template.urlString u => env.loadTemplate u

/-- The catch handler of `load` (lines 176 to 180): call `this.error(e)`
and re-throw `e`.  When `error` itself throws (missing element), that
TypeError becomes the rejection instead. -/
def loadCatch (s : MState) (e : Err) : MState × Except Err Unit × List Event :=
  match s.errorOp (Option.some e) with
  | (s1, Except.error e1, tr) => (s1, Except.error e1, tr)
  | (s1, Except.ok _, tr) => (s1, Except.error e, tr)

/-- Lines 151 to 175: the then-chain of `load` after all subModule loads
settled successfully, on the component's own state: load styles, fetch
data, resolve the template, push the produced nodes onto `_elChildren` in
order, append them to the element (a TypeError on a missing element), set
`loaded`, status `loaded`, add the loaded class, fire `onLoad`.  A failure
at any step funnels through the catch handler of lines 176 to 180. -/
def loadOwn (env : Env) (s0 : MState) : MState × Except Err Unit × List Event :=
  match env.loadCss s0.options.styles with
  | Except.error e =>
    match loadCatch s0 e with
    | (s1, r, tr1) => (s1, r, [Event.stylesLoad s0.options.styles] ++ tr1)
  | Except.ok _ =>
    match fetchDataStep env s0.options.data s0.options.requestOptions with
    | Except.error e =>
      match loadCatch s0 e with
      | (s1, r, tr1) =>
        (s1, r, [Event.stylesLoad s0.options.styles, Event.dataFetch s0.options.data] ++ tr1)
    | Except.ok _ =>
      match getTemplateStep env s0.options.template with
      | Except.error e =>
        match loadCatch s0 e with
        | (s1, r, tr1) =>
          (s1, r, [Event.stylesLoad s0.options.styles, Event.dataFetch s0.options.data,
                   Event.templateResolve s0.options.template] ++ tr1)
      | Except.ok nodes =>
        match s0.el with
        | Option.none =>
          match loadCatch { s0 with elChildren := s0.elChildren ++ nodes } nullAppendChildErr with
          | (s1, r, tr1) =>
            (s1, r, [Event.stylesLoad s0.options.styles, Event.dataFetch s0.options.data,
                     Event.templateResolve s0.options.template] ++ tr1)
        | Option.some el0 =>
          ({ s0 with el := Option.some (addClass { el0 with children := el0.children ++ nodes }
                             s0.options.loadedClass),
                     elChildren := s0.elChildren ++ nodes,
                     loaded := true, loadStatus := LoadStatus.loaded },
           Except.ok (),
           [Event.stylesLoad s0.options.styles, Event.dataFetch s0.options.data,
            Event.templateResolve s0.options.template,
            Event.mountNodes nodes, Event.callback "onLoad"])

mutual

/-- Lines 139 to 184: `load()`.  When already loaded it resolves
immediately with no effect.  Otherwise: status `loading`; load every
subModule and wait for all (the first rejection aborts into the catch
handler); then the component's own chain `loadOwn`. -/
def Module.load (env : Env) : Module → Module × Except Err Unit × List Event
  | .node s subs =>
    if s.loaded then (.node s subs, Except.ok (), [])
    else
      match loadSubs env subs with
      | (subs1, Option.some e, subTr) =>
        match loadCatch { s with loadStatus := LoadStatus.loading } e with
        | (s1, r, tr1) => (.node s1 subs1, r, subTr ++ tr1)
      | (subs1, Option.none, subTr) =>
        match loadOwn env { s with loadStatus := LoadStatus.loading } with
        | (s1, r, tr1) => (.node s1 subs1, r, subTr ++ tr1)

/-- Lines 143 to 150: the subModule loop of `load` plus the `Promise.all`
aggregation: every child load runs to settlement, the first rejection in
map order (if any) is the aggregate rejection. -/
def loadSubs (env : Env) : List (String × Module) → List (String × Module) × Option Err × List Event
  | [] => ([], Option.none, [])
  | (k, m) :: rest =>
    match Module.load env m with
    | (m1, r, tr) =>
      match loadSubs env rest with
      | (rest1, rerr, rtr) =>
        let firstErr := match r with
          | Except.error e => Option.some e
          | Except.ok _ => rerr
        ((k, m1) :: rest1, firstErr, tr ++ rtr)

end

mutual

/-- Lines 398 to 423: `destroy()`.  Destroy every subModule (a throw in a
child aborts the loop and escapes before the map is cleared), clear the
map, reset `active`, `loaded`, `errored` and `loadStatus` (note:
`disabled` is not touched), remove the loaded and active classes (a
TypeError on a missing element), restore the originally captured
disabled/error markers, and remove every still-attached mounted node. -/
def Module.destroy : Module → Module × Option Err
  | .node s subs =>
    match destroySubs subs with
    | (subs1, Option.some e) => (.node s subs1, Option.some e)
    | (_subs1, Option.none) =>
      let s1 := { s with active := false, loaded := false, errored := false,
                         loadStatus := LoadStatus.notLoaded }
      match s1.el with
      | Option.none => (.node s1 [], Option.some nullClassListErr)
      | Option.some el0 =>
        let el1 := removeClass (removeClass el0 s1.options.loadedClass) s1.options.activeClass
        let el2 := if s1.origDisabled then addClass el1 s1.options.disabledClass
                   else removeClass el1 s1.options.disabledClass
        let el3 := if s1.origError then addClass el2 s1.options.errorClass
                   else removeClass el2 s1.options.errorClass
        let el4 := { el3 with
                     children := el3.children.filter (fun n => ¬ s1.elChildren.contains n) }
        (.node { s1 with el := Option.some el4, elChildren := [] } [], Option.none)

/-- Lines 401 to 405: the destroy loop over the child map; a throw stops
the loop, leaving the remaining children untouched. -/
def destroySubs : List (String × Module) → List (String × Module) × Option Err
  | [] => ([], Option.none)
  | (k, m) :: rest =>
    match Module.destroy m with
    | (m1, Option.some e) => ((k, m1) :: rest, Option.some e)
    | (m1, Option.none) =>
      match destroySubs rest with
      | (rest1, rerr) => ((k, m1) :: rest1, rerr)

end

/-- Lines 86 to 133 plus `_handleElementInitialState` (330 to 344): the
constructor.  A missing element logs a console error and nothing else is
element-dependent; otherwise, when the disabled marker pre-exists, the
original disabled state is recorded and `disable()` runs, and when the
error marker is present (on the possibly already updated class list) the
original error state is recorded and `error(new Error())` runs.  Field
initialization is written up front; the source initializes
`subModules`, `active`, `loaded`, `_elChildren` and `loadStatus` after
`_handleElementInitialState`, which is observably equivalent because the
initial-state handlers only set `disabled`, `errored`, `loaded` and
`loadStatus` to values the later assignments either keep or repeat. -/
def Module.construct (el : Option Elem) (opts : Options) : Module × List Event :=
  let log : List Event :=
    match el with
    | Option.none => [Event.consoleError "Module error: No element was passed to constructor"]
    | Option.some _ => []
  let s0 : MState :=
    { el := el, options := opts, active := false, loaded := false, errored := false,
      disabled := false, origDisabled := false, origError := false,
      elChildren := [], loadStatus := LoadStatus.notLoaded }
  match el with
  | Option.none => (Module.node s0 [], log)
  | Option.some e0 =>
    let p1 :=
      if e0.classes.contains opts.disabledClass then
        MState.disable { s0 with origDisabled := true }
      else (s0, [])
    let s1 := p1.1
    let e1 := s1.el.getD e0
    let p2 :=
      if e1.classes.contains opts.errorClass then
        match MState.errorOp { s1 with origError := true } (Option.some (Err.error "")) with
        | (s2, _, tr) => (s2, tr)
      else (s1, [])
    (Module.node p2.1 [], log ++ p1.2 ++ p2.2)

/-- Lifecycle operations lifted from the state to the Module (they do not
touch the child map). -/
def Module.show (m : Module) : Module × List Event :=
  match m with
  | .node s subs => match s.show with | (s1, tr) => (.node s1 subs, tr)

def Module.hide (m : Module) : Module × List Event :=
  match m with
  | .node s subs => match s.hide with | (s1, tr) => (.node s1 subs, tr)

def Module.enable (m : Module) : Module × List Event :=
  match m with
  | .node s subs => match s.enable with | (s1, tr) => (.node s1 subs, tr)

def Module.disable (m : Module) : Module × List Event :=
  match m with
  | .node s subs => match s.disable with | (s1, tr) => (.node s1 subs, tr)

def Module.errorOp (m : Module) (err : Option Err) : Module × Except Err Err × List Event :=
  match m with
  | .node s subs => match s.errorOp err with | (s1, r, tr) => (.node s1 subs, r, tr)

/-- A node of the parent chain as `traverseEachParent` observes it: an
identity, whether `typeof node.className === "string"` (true for real
elements, false for the document node), and its class list. -/
structure PNode where
  id : Nat
  isElem : Bool
  classes : List String
deriving DecidableEq, Repr

/-- Lines 11 to 22: `traverseEachParent`.  The parent chain starting at
`startEl` is given as a list (an empty tail models a null `parentNode`).
The callback closes over mutable state in the source, so it is given the
closure state `σ` explicitly and returns the updated state together with
its JavaScript return value (`Option.none` models `undefined`).  The walk
stops when the chain runs out, when a node is not element-like, or when
the callback returns a defined falsy value. -/
def traverseEachParent {σ : Type} (callback : σ → PNode → σ × Option Bool) :
    σ → List PNode → σ
  | s, [] => s
  | s, n :: rest =>
    if n.isElem then
      match callback s n with
      | (s1, Option.some b) => if b then traverseEachParent callback s1 rest else s1
      | (s1, Option.none) => traverseEachParent callback s1 rest
    else s

/-- Lines 384 to 393: the traversal body of
`getClosestAncestorElementByClassName`, applied to a given start chain.
The callback records the first matching node in `result` and returns
`false` to break; otherwise it returns `undefined` and the walk
continues. -/
def getClosestAncestorElementByClassName (className : String) (chain : List PNode) :
    Option PNode :=
  traverseEachParent
    (fun result parent =>
      if parent.classes.contains className then (Option.some parent, Option.some false)
      else (result, Option.none))
    Option.none chain

/-- The method wrapper of lines 384 to 393: without an explicit
`startTarget`, the default expression `this.el.parentNode || this.el`
dereferences a null element and throws; otherwise the walk starts at the
chain the caller/DOM provides (`elChain` stands for the chain rooted at
the element's parent, or at the element itself when it has no parent). -/
def Module.getClosestAncestorCall (m : Module) (className : String)
    (startTarget : Option (List PNode)) (elChain : List PNode) : Except Err (Option PNode) :=
  match startTarget with
  | Option.some chain => Except.ok (getClosestAncestorElementByClassName className chain)
  | Option.none =>
    match m.state.el with
    | Option.none => Except.error nullParentNodeErr
    | Option.some _ => Except.ok (getClosestAncestorElementByClassName className elChain)

/-!
The option-merging loop of the constructor (lines 115 to 121) operates on
raw JavaScript records, before any typing: it is modelled separately on
untyped values with JavaScript truthiness.
-/

/-- Untyped JavaScript values as far as the constructor observes them:
kind plus payload; arrays, objects and functions are identified by an id
and are always truthy. -/
inductive JSValue where
  | undefined
  | null
  | boolean (b : Bool)
  | number (n : Int)
  | string (s : String)
  | array (id : Nat)
  | object (id : Nat)
  | function (id : Nat)
deriving DecidableEq, Repr

/-- JavaScript truthiness: `undefined`, `null`, `false`, `0` and the empty
string are falsy; every array, object and function is truthy. -/
def JSValue.truthy : JSValue → Bool
  | JSValue.undefined => false
  | JSValue.null => false
  | JSValue.boolean b => b
  | JSValue.number n => n != 0
  | JSValue.string s => s ≠ ""
  | JSValue.array _ => true
  | JSValue.object _ => true
  | JSValue.function _ => true

/-- A raw options record: ordered own-property list. -/
abbrev OptRecord := List (String × JSValue)

/-- Property read `o[k]`: the stored value, or `undefined` when absent. -/
def optGet : OptRecord → String → JSValue
  | [], _ => JSValue.undefined
  | (k1, v1) :: rest, k => if k1 = k then v1 else optGet rest k

/-- Property write `o[k] = v`: update in place when the key exists,
append otherwise. -/
def optSet : OptRecord → String → JSValue → OptRecord
  | [], k, v => [(k, v)]
  | (k1, v1) :: rest, k, v =>
    if k1 = k then (k, v) :: rest else (k1, v1) :: optSet rest k v

/-- One iteration of the loop at lines 115 to 121: when the caller value
for the key is falsy, the default is written into the record. -/
def mergeStep (o : OptRecord) (kv : String × JSValue) : OptRecord :=
  if (optGet o kv.1).truthy = true then o else optSet o kv.1 kv.2

/-- The whole for-in loop over a default record, in insertion order. -/
def mergeLoop (defaults : OptRecord) (o : OptRecord) : OptRecord :=
  defaults.foldl mergeStep o

/-- The `defaultOptions` record of lines 96 to 111 in raw form; the six
callback defaults are distinct no-op function objects. -/
def defaultOptionsJS : OptRecord :=
  [("loadedClass", JSValue.string "module-loaded"),
   ("activeClass", JSValue.string "module-active"),
   ("disabledClass", JSValue.string "module-disabled"),
   ("errorClass", JSValue.string "module-error"),
   ("styles", JSValue.array 0),
   ("template", JSValue.string ""),
   ("data", JSValue.null),
   ("requestOptions", JSValue.null),
   ("onLoad", JSValue.function 0),
   ("onShow", JSValue.function 1),
   ("onHide", JSValue.function 2),
   ("onEnable", JSValue.function 3),
   ("onDisable", JSValue.function 4),
   ("onError", JSValue.function 5)]

/-- The merging the constructor performs on the caller record. -/
def mergeOptions (o : OptRecord) : OptRecord :=
  mergeLoop defaultOptionsJS o

/-- Lines 88, 115 to 123 with the caller record held in a heap (addresses
to records), making the in-place mutation observable: the loop overwrites
the record at the caller's address `optRef`, and `this.options` becomes
that same address. -/
def constructorOptionsInPlace (heap : Nat → OptRecord) (optRef : Nat) :
    (Nat → OptRecord) × Nat :=
  (fun a => if a = optRef then mergeOptions (heap optRef) else heap a, optRef)

/-!
Concrete instances used by witnesses and counterexamples.
-/

/-- Collaborators that always succeed; the template loader yields no
nodes. -/
def envOk : Env :=
  { loadCss := fun _ => Except.ok ()
    fetchData := fun _ _ => Except.ok ()
    loadTemplate := fun _ => Except.ok [] }

/-- Collaborators in which only the stylesheet `bad.css` fails to load. -/
def envBadCss : Env :=
  { loadCss := fun ss => if ss = ["bad.css"] then Except.error (Err.error "boom") else Except.ok ()
    fetchData := fun _ _ => Except.ok ()
    loadTemplate := fun _ => Except.ok [] }

/-- An element with no classes and no children. -/
def blankElem : Elem := { classes := [], children := [] }

/-- An element pre-carrying the default disabled marker. -/
def disabledElem : Elem := { classes := ["module-disabled"], children := [] }

/-- A freshly constructed component on a blank element with default
options. -/
def freshModule : Module := (Module.construct (Option.some blankElem) defaultOptions).1

/-- A component constructed on an element that already carries the
disabled marker. -/
def origDisabledModule : Module := (Module.construct (Option.some disabledElem) defaultOptions).1

/-- A component constructed without an element. -/
def elLessModule : Module := (Module.construct Option.none defaultOptions).1

/-- A second component constructed without an element (kept separate so
that no two claims share a concrete counterexample statement). -/
def elLessModule2 : Module := (Module.construct Option.none defaultOptions).1

/-- A component that has completed a successful load. -/
def loadedModule : Module := (Module.load envOk freshModule).1

/-- A child component configured so that its load rejects (its stylesheet
fails under `envBadCss`). -/
def childBad : Module :=
  (Module.construct (Option.some blankElem) { defaultOptions with styles := ["bad.css"] }).1

/-- A child component whose load succeeds. -/
def childOk : Module := (Module.construct (Option.some blankElem) defaultOptions).1

/-- A parent holding the two children of the failure-propagation scenario:
child `a` rejects, child `b` succeeds. -/
def parentAB : Module :=
  Module.node (Module.construct (Option.some blankElem) defaultOptions).1.state
    [("a", childBad), ("b", childOk)]

/-- The corrected mounted-nodes invariant: mounted nodes can be present
only on a component that is loaded or errored. -/
def mountedInv (s : MState) : Prop :=
  s.elChildren ≠ [] → (s.loaded = true ∨ s.errored = true)

/-!
Helper lemmas shared by the claim proofs.
-/

theorem loadCatch_of_el_none (s : MState) (e : Err) (h : s.el = Option.none) :
    loadCatch s e = (s, Except.error nullClassListErr, []) := by
  simp [loadCatch, MState.errorOp, h]

theorem loadCatch_of_el_some (s : MState) (e : Err) (el0 : Elem) (h : s.el = Option.some el0) :
    loadCatch s e =
      ({ s with el := Option.some (addClass el0 s.options.errorClass), errored := true,
                loaded := false, loadStatus := LoadStatus.notLoaded },
       Except.error e, [Event.onErrorCb e]) := by
  simp [loadCatch, MState.errorOp, h]


theorem loadCatch_error_shape (s : MState) (e : Err) :
    ∃ e1 : Err, (loadCatch s e).2.1 = Except.error e1 := by
  cases hel : s.el with
  | none => rw [loadCatch_of_el_none s e hel]; exact ⟨nullClassListErr, rfl⟩
  | some el0 => rw [loadCatch_of_el_some s e el0 hel]; exact ⟨e, rfl⟩

theorem loadOwn_eq_styles_err (env : Env) (s0 : MState) (e1 : Err)
    (hcss : env.loadCss s0.options.styles = Except.error e1) :
    loadOwn env s0 = ((loadCatch s0 e1).1, (loadCatch s0 e1).2.1,
      [Event.stylesLoad s0.options.styles] ++ (loadCatch s0 e1).2.2) := by
  unfold loadOwn
  rw [hcss]

theorem loadOwn_eq_data_err (env : Env) (s0 : MState) (e1 : Err)
    (hcss : env.loadCss s0.options.styles = Except.ok ())
    (hdata : fetchDataStep env s0.options.data s0.options.requestOptions = Except.error e1) :
    loadOwn env s0 = ((loadCatch s0 e1).1, (loadCatch s0 e1).2.1,
      [Event.stylesLoad s0.options.styles, Event.dataFetch s0.options.data] ++
        (loadCatch s0 e1).2.2) := by
  unfold loadOwn
  rw [hcss, hdata]

theorem loadOwn_eq_tpl_err (env : Env) (s0 : MState) (e1 : Err)
    (hcss : env.loadCss s0.options.styles = Except.ok ())
    (hdata : fetchDataStep env s0.options.data s0.options.requestOptions = Except.ok ())
    (htpl : getTemplateStep env s0.options.template = Except.error e1) :
    loadOwn env s0 = ((loadCatch s0 e1).1, (loadCatch s0 e1).2.1,
      [Event.stylesLoad s0.options.styles, Event.dataFetch s0.options.data,
       Event.templateResolve s0.options.template] ++ (loadCatch s0 e1).2.2) := by
  unfold loadOwn
  rw [hcss, hdata, htpl]

theorem loadOwn_eq_mount_none (env : Env) (s0 : MState) (nodes : List Node)
    (hcss : env.loadCss s0.options.styles = Except.ok ())
    (hdata : fetchDataStep env s0.options.data s0.options.requestOptions = Except.ok ())
    (htpl : getTemplateStep env s0.options.template = Except.ok nodes)
    (hel : s0.el = Option.none) :
    loadOwn env s0 =
      ((loadCatch { s0 with elChildren := s0.elChildren ++ nodes } nullAppendChildErr).1,
       (loadCatch { s0 with elChildren := s0.elChildren ++ nodes } nullAppendChildErr).2.1,
       [Event.stylesLoad s0.options.styles, Event.dataFetch s0.options.data,
        Event.templateResolve s0.options.template] ++
         (loadCatch { s0 with elChildren := s0.elChildren ++ nodes } nullAppendChildErr).2.2) := by
  unfold loadOwn
  rw [hcss, hdata, htpl, hel]

theorem loadOwn_eq_mount_some (env : Env) (s0 : MState) (nodes : List Node) (el0 : Elem)
    (hcss : env.loadCss s0.options.styles = Except.ok ())
    (hdata : fetchDataStep env s0.options.data s0.options.requestOptions = Except.ok ())
    (htpl : getTemplateStep env s0.options.template = Except.ok nodes)
    (hel : s0.el = Option.some el0) :
    loadOwn env s0 =
      ({ s0 with el := Option.some (addClass { el0 with children := el0.children ++ nodes }
                         s0.options.loadedClass),
                 elChildren := s0.elChildren ++ nodes,
                 loaded := true, loadStatus := LoadStatus.loaded },
       Except.ok (),
       [Event.stylesLoad s0.options.styles, Event.dataFetch s0.options.data,
        Event.templateResolve s0.options.template,
        Event.mountNodes nodes, Event.callback "onLoad"]) := by
  unfold loadOwn
  rw [hcss, hdata, htpl, hel]

theorem loadOwn_of_error (env : Env) (s0 : MState) (el0 : Elem) (hel : s0.el = Option.some el0)
    (e : Err) (herr : (loadOwn env s0).2.1 = Except.error e) :
    (loadOwn env s0).1.errored = true ∧ (loadOwn env s0).1.loaded = false ∧
      ∃ pre : List Event, (loadOwn env s0).2.2 = pre ++ [Event.onErrorCb e] := by
  cases hcss : env.loadCss s0.options.styles with
  | error e1 =>
    rw [loadOwn_eq_styles_err env s0 e1 hcss] at herr ⊢
    rw [loadCatch_of_el_some s0 e1 el0 hel] at herr ⊢
    simp at herr
    subst herr
    exact ⟨rfl, rfl, [Event.stylesLoad s0.options.styles], rfl⟩
  | ok u =>
    cases u
    cases hdata : fetchDataStep env s0.options.data s0.options.requestOptions with
    | error e1 =>
      rw [loadOwn_eq_data_err env s0 e1 hcss hdata] at herr ⊢
      rw [loadCatch_of_el_some s0 e1 el0 hel] at herr ⊢
      simp at herr
      subst herr
      exact ⟨rfl, rfl, [Event.stylesLoad s0.options.styles, Event.dataFetch s0.options.data], rfl⟩
    | ok u2 =>
      cases u2
      cases htpl : getTemplateStep env s0.options.template with
      | error e1 =>
        rw [loadOwn_eq_tpl_err env s0 e1 hcss hdata htpl] at herr ⊢
        rw [loadCatch_of_el_some s0 e1 el0 hel] at herr ⊢
        simp at herr
        subst herr
        exact ⟨rfl, rfl, [Event.stylesLoad s0.options.styles, Event.dataFetch s0.options.data,
          Event.templateResolve s0.options.template], rfl⟩
      | ok nodes =>
        rw [loadOwn_eq_mount_some env s0 nodes el0 hcss hdata htpl hel] at herr
        simp at herr

theorem loadOwn_of_ok (env : Env) (s0 : MState)
    (hok : (loadOwn env s0).2.1 = Except.ok ()) :
    (loadOwn env s0).1.loaded = true ∧
      ∃ nodes : List Node,
        getTemplateStep env s0.options.template = Except.ok nodes ∧
        (loadOwn env s0).2.2 =
          [Event.stylesLoad s0.options.styles, Event.dataFetch s0.options.data,
           Event.templateResolve s0.options.template,
           Event.mountNodes nodes, Event.callback "onLoad"] ∧
        (loadOwn env s0).1.elChildren = s0.elChildren ++ nodes := by
  cases hcss : env.loadCss s0.options.styles with
  | error e1 =>
    rw [loadOwn_eq_styles_err env s0 e1 hcss] at hok
    rcases loadCatch_error_shape s0 e1 with ⟨e2, he2⟩
    simp only [he2] at hok
    simp at hok
  | ok u =>
    cases u
    cases hdata : fetchDataStep env s0.options.data s0.options.requestOptions with
    | error e1 =>
      rw [loadOwn_eq_data_err env s0 e1 hcss hdata] at hok
      rcases loadCatch_error_shape s0 e1 with ⟨e2, he2⟩
      simp only [he2] at hok
      simp at hok
    | ok u2 =>
      cases u2
      cases htpl : getTemplateStep env s0.options.template with
      | error e1 =>
        rw [loadOwn_eq_tpl_err env s0 e1 hcss hdata htpl] at hok
        rcases loadCatch_error_shape s0 e1 with ⟨e2, he2⟩
        simp only [he2] at hok
        simp at hok
      | ok nodes =>
        cases hel : s0.el with
        | none =>
          rw [loadOwn_eq_mount_none env s0 nodes hcss hdata htpl hel] at hok
          rcases loadCatch_error_shape { s0 with elChildren := s0.elChildren ++ nodes }
              nullAppendChildErr with ⟨e2, he2⟩
          simp only [he2] at hok
          simp at hok
        | some el0 =>
          rw [loadOwn_eq_mount_some env s0 nodes el0 hcss hdata htpl hel]
          exact ⟨rfl, nodes, rfl, rfl, rfl⟩

theorem loadOwn_of_el_none (env : Env) (s0 : MState) (hel : s0.el = Option.none) :
    (loadOwn env s0).2.1 = Except.error nullClassListErr ∧
      (loadOwn env s0).1.errored = s0.errored ∧ (loadOwn env s0).1.loaded = s0.loaded := by
  cases hcss : env.loadCss s0.options.styles with
  | error e1 =>
    rw [loadOwn_eq_styles_err env s0 e1 hcss, loadCatch_of_el_none s0 e1 hel]
    exact ⟨rfl, rfl, rfl⟩
  | ok u =>
    cases u
    cases hdata : fetchDataStep env s0.options.data s0.options.requestOptions with
    | error e1 =>
      rw [loadOwn_eq_data_err env s0 e1 hcss hdata, loadCatch_of_el_none s0 e1 hel]
      exact ⟨rfl, rfl, rfl⟩
    | ok u2 =>
      cases u2
      cases htpl : getTemplateStep env s0.options.template with
      | error e1 =>
        rw [loadOwn_eq_tpl_err env s0 e1 hcss hdata htpl, loadCatch_of_el_none s0 e1 hel]
        exact ⟨rfl, rfl, rfl⟩
      | ok nodes =>
        rw [loadOwn_eq_mount_none env s0 nodes hcss hdata htpl hel,
          loadCatch_of_el_none { s0 with elChildren := s0.elChildren ++ nodes }
            nullAppendChildErr hel]
        exact ⟨rfl, rfl, rfl⟩

theorem errorOp_of_el_some (s : MState) (err : Option Err) (el0 : Elem)
    (h : s.el = Option.some el0) :
    MState.errorOp s err =
      ({ s with el := Option.some (addClass el0 s.options.errorClass), errored := true,
                loaded := false, loadStatus := LoadStatus.notLoaded },
       Except.ok (err.getD (Err.error "")), [Event.onErrorCb (err.getD (Err.error ""))]) := by
  simp [MState.errorOp, h]

theorem destroy_eq_of_subErr (s : MState) (subs subs1 : List (String × Module)) (e : Err)
    (hds : destroySubs subs = (subs1, Option.some e)) :
    Module.destroy (Module.node s subs) = (Module.node s subs1, Option.some e) := by
  simp only [Module.destroy]
  rw [hds]

theorem destroy_eq_of_subOk_none (s : MState) (subs subs1 : List (String × Module))
    (hds : destroySubs subs = (subs1, Option.none)) (hel : s.el = Option.none) :
    Module.destroy (Module.node s subs) =
      (Module.node { s with active := false, loaded := false, errored := false,
                            loadStatus := LoadStatus.notLoaded } [],
       Option.some nullClassListErr) := by
  simp only [Module.destroy]
  rw [hds, hel]

theorem mem_classListAdd_self (cs : List String) (c : String) : c ∈ classListAdd cs c := by
  unfold classListAdd
  split
  · next h => exact List.mem_of_elem_eq_true h
  · exact List.mem_append_right _ (List.mem_singleton.mpr rfl)

theorem mem_classListAdd_of_mem (cs : List String) (c c1 : String) (h : c ∈ cs) :
    c ∈ classListAdd cs c1 := by
  unfold classListAdd
  split
  · exact h
  · exact List.mem_append_left _ h

theorem mem_classListRemove_of_ne (cs : List String) (c c1 : String) (hne : c ≠ c1)
    (h : c ∈ cs) : c ∈ classListRemove cs c1 := by
  unfold classListRemove
  exact List.mem_filter.mpr ⟨h, by simp [hne]⟩

theorem mem_addClass_self (e : Elem) (c : String) : c ∈ (addClass e c).classes :=
  mem_classListAdd_self e.classes c

theorem mem_addClass_of_mem (e : Elem) (c c1 : String) (h : c ∈ e.classes) :
    c ∈ (addClass e c1).classes :=
  mem_classListAdd_of_mem e.classes c c1 h

theorem mem_removeClass_of_ne (e : Elem) (c c1 : String) (hne : c ≠ c1) (h : c ∈ e.classes) :
    c ∈ (removeClass e c1).classes :=
  mem_classListRemove_of_ne e.classes c c1 hne h

theorem mem_reset_error_classes (b : Bool) (el2 : Elem) (dc ec : String) (hne : dc ≠ ec)
    (h : dc ∈ el2.classes) :
    dc ∈ (if b = true then addClass el2 ec else removeClass el2 ec).classes := by
  cases b
  · exact mem_removeClass_of_ne el2 dc ec hne h
  · exact mem_addClass_of_mem el2 dc ec h

theorem destroy_fields_of_subOk_some (s : MState) (subs subs1 : List (String × Module))
    (el0 : Elem) (hds : destroySubs subs = (subs1, Option.none))
    (hel : s.el = Option.some el0) :
    (Module.destroy (Module.node s subs)).2 = Option.none ∧
    (Module.destroy (Module.node s subs)).1.subs = [] ∧
    (Module.destroy (Module.node s subs)).1.state.active = false ∧
    (Module.destroy (Module.node s subs)).1.state.loaded = false ∧
    (Module.destroy (Module.node s subs)).1.state.errored = false ∧
    (Module.destroy (Module.node s subs)).1.state.loadStatus = LoadStatus.notLoaded ∧
    (Module.destroy (Module.node s subs)).1.state.disabled = s.disabled ∧
    (Module.destroy (Module.node s subs)).1.state.elChildren = [] ∧
    (s.origDisabled = true → s.options.disabledClass ≠ s.options.errorClass →
      ∃ e1 : Elem, (Module.destroy (Module.node s subs)).1.state.el = Option.some e1 ∧
        s.options.disabledClass ∈ e1.classes) := by
  simp only [Module.destroy]
  rw [hds, hel]
  refine ⟨rfl, rfl, rfl, rfl, rfl, rfl, rfl, rfl, ?_⟩
  intro hod hne
  rw [hod]
  refine ⟨_, rfl, ?_⟩
  exact mem_reset_error_classes s.origError _ s.options.disabledClass s.options.errorClass hne
    (mem_addClass_self _ s.options.disabledClass)

theorem load_eq_of_loaded (env : Env) (s : MState) (subs : List (String × Module))
    (h : s.loaded = true) :
    Module.load env (Module.node s subs) = (Module.node s subs, Except.ok (), []) := by
  simp only [Module.load]
  rw [if_pos h]

theorem load_eq_of_subErr (env : Env) (s : MState) (subs subs1 : List (String × Module))
    (e : Err) (subTr : List Event) (hb : s.loaded = false)
    (hsub : loadSubs env subs = (subs1, Option.some e, subTr)) :
    Module.load env (Module.node s subs) =
      (Module.node (loadCatch { s with loadStatus := LoadStatus.loading } e).1 subs1,
       (loadCatch { s with loadStatus := LoadStatus.loading } e).2.1,
       subTr ++ (loadCatch { s with loadStatus := LoadStatus.loading } e).2.2) := by
  simp only [Module.load]
  rw [if_neg (by simp [hb]), hsub]

theorem load_eq_of_subOk (env : Env) (s : MState) (subs subs1 : List (String × Module))
    (subTr : List Event) (hb : s.loaded = false)
    (hsub : loadSubs env subs = (subs1, Option.none, subTr)) :
    Module.load env (Module.node s subs) =
      (Module.node (loadOwn env { s with loadStatus := LoadStatus.loading }).1 subs1,
       (loadOwn env { s with loadStatus := LoadStatus.loading }).2.1,
       subTr ++ (loadOwn env { s with loadStatus := LoadStatus.loading }).2.2) := by
  simp only [Module.load]
  rw [if_neg (by simp [hb]), hsub]

theorem optGet_optSet_self (o : OptRecord) (k : String) (v : JSValue) :
    optGet (optSet o k v) k = v := by
  induction o with
  | nil => simp [optSet, optGet]
  | cons p rest ih =>
    obtain ⟨k1, v1⟩ := p
    by_cases h : k1 = k
    · subst h
      simp [optSet, optGet]
    · simp [optSet, optGet, h, ih]

theorem optGet_optSet_ne (o : OptRecord) (k k2 : String) (v : JSValue) (h : k2 ≠ k) :
    optGet (optSet o k v) k2 = optGet o k2 := by
  induction o with
  | nil => simp [optSet, optGet, Ne.symm h]
  | cons p rest ih =>
    obtain ⟨k1, v1⟩ := p
    by_cases h1 : k1 = k
    · subst h1
      simp [optSet, optGet, Ne.symm h]
    · simp [optSet, optGet, h1, ih]

theorem optGet_mergeStep_ne (o : OptRecord) (kv : String × JSValue) (k : String)
    (h : kv.1 ≠ k) : optGet (mergeStep o kv) k = optGet o k := by
  unfold mergeStep
  split
  · rfl
  · exact optGet_optSet_ne o kv.1 k kv.2 (Ne.symm h)

theorem optGet_mergeLoop_not_mem (ds : OptRecord) (o : OptRecord) (k : String)
    (h : ¬ k ∈ ds.map Prod.fst) :
    optGet (mergeLoop ds o) k = optGet o k := by
  induction ds generalizing o with
  | nil => rfl
  | cons d rest ih =>
    have h1 : d.1 ≠ k := by
      intro hh
      apply h
      rw [List.map_cons, hh]
      exact List.mem_cons_self k _
    have h2 : ¬ k ∈ rest.map Prod.fst := by
      intro hh
      exact h (by rw [List.map_cons]; exact List.mem_cons_of_mem _ hh)
    rw [show mergeLoop (d :: rest) o = mergeLoop rest (mergeStep o d) from rfl]
    rw [ih (mergeStep o d) h2, optGet_mergeStep_ne o d k h1]

theorem optGet_mergeLoop_mem (ds : OptRecord) (o : OptRecord) (k : String) (v : JSValue)
    (hnd : (ds.map Prod.fst).Nodup) (hmem : (k, v) ∈ ds) :
    optGet (mergeLoop ds o) k =
      if (optGet o k).truthy = true then optGet o k else v := by
  induction ds generalizing o with
  | nil => cases hmem
  | cons d rest ih =>
    rw [show mergeLoop (d :: rest) o = mergeLoop rest (mergeStep o d) from rfl]
    rw [List.map_cons, List.nodup_cons] at hnd
    rcases List.mem_cons.mp hmem with heq | hrest
    · subst heq
      rw [optGet_mergeLoop_not_mem rest (mergeStep o (k, v)) k hnd.1]
      unfold mergeStep
      by_cases ht : (optGet o k).truthy = true
      · rw [if_pos ht, if_pos ht]
      · rw [if_neg ht, if_neg ht, optGet_optSet_self]
    · have hkrest : k ∈ rest.map Prod.fst := List.mem_map.mpr ⟨(k, v), hrest, rfl⟩
      have hne : d.1 ≠ k := fun hh => hnd.1 (hh ▸ hkrest)
      rw [ih (mergeStep o d) hnd.2 hrest, optGet_mergeStep_ne o d k hne]

/-!
C8 — default-option merging policy.
-/

/-- C8: for every key of the default set and any caller options record,
the merged configuration holds the caller value exactly when that value is
truthy, and the default value whenever the caller value is falsy (absent,
undefined, null, false, 0 or the empty string). -/
theorem c8_falsy_options_replaced (o : OptRecord) (k : String) (v : JSValue)
    (hmem : (k, v) ∈ defaultOptionsJS) :
    optGet (mergeOptions o) k =
      if (optGet o k).truthy = true then optGet o k else v := by
  have hnd : (defaultOptionsJS.map Prod.fst).Nodup := by decide
  exact optGet_mergeLoop_mem defaultOptionsJS o k v hnd hmem

/-- Witness for C8 at the key `data` (caller value absent, hence falsy)
on a record that supplies only a falsy `template`. -/
theorem c8_falsy_options_replaced_witness :
    optGet (mergeOptions [("template", JSValue.string "")]) "data" =
      (if (optGet [("template", JSValue.string "")] "data").truthy = true
       then optGet [("template", JSValue.string "")] "data" else JSValue.null) :=
  c8_falsy_options_replaced [("template", JSValue.string "")] "data" JSValue.null (by decide)

/-!
C9 — the constructor merges into the caller record in place.
-/

/-- C9: the constructor's option loop writes through the caller's own
record reference: afterwards `this.options` is the caller's address, the
record stored there is the merged record, and merging a previously empty
record yields the full default record (so the caller's object really is
overwritten rather than a fresh merged copy being built). -/
theorem c9_options_merged_in_place (heap : Nat → OptRecord) (optRef : Nat) :
    (constructorOptionsInPlace heap optRef).2 = optRef ∧
      (constructorOptionsInPlace heap optRef).1 optRef = mergeOptions (heap optRef) ∧
      mergeOptions [] = defaultOptionsJS := by
  refine ⟨rfl, ?_, by decide⟩
  simp [constructorOptionsInPlace]

/-!
C10 — frame effect of the visibility and enablement toggles.
-/

/-- C10: each of show, hide, enable, disable changes exactly its own flag
and its own CSS marker on the element and fires exactly its own callback;
loaded, loadStatus, errored, the child map and the mounted-node list are
untouched (the result is the full old record with only that flag and that
class-list edit). -/
theorem c10_toggle_frame_effect (m : Module) :
    m.show = (Module.node { m.state with
        el := m.state.el.map (fun e => addClass e m.state.options.activeClass),
        active := true } m.subs, [Event.callback "onShow"]) ∧
    m.hide = (Module.node { m.state with
        el := m.state.el.map (fun e => removeClass e m.state.options.activeClass),
        active := false } m.subs, [Event.callback "onHide"]) ∧
    m.enable = (Module.node { m.state with
        el := m.state.el.map (fun e => removeClass e m.state.options.disabledClass),
        disabled := false } m.subs, [Event.callback "onEnable"]) ∧
    m.disable = (Module.node { m.state with
        el := m.state.el.map (fun e => addClass e m.state.options.disabledClass),
        disabled := true } m.subs, [Event.callback "onDisable"]) := by
  cases m
  exact ⟨rfl, rfl, rfl, rfl⟩

/-!
C5 — load is a no-op once loaded.
-/

/-- C5: on a component with loaded true, load resolves immediately with
the whole component unchanged and an empty trace (no collaborator call,
no child load, no callback); moreover every load that resolves leaves
loaded true, and a repeated load is then exactly such a no-op, so the
fetch-mount sequence runs at most once across the two calls. -/
theorem c5_second_load_noop (env : Env) (m : Module) (h : m.state.loaded = true) :
    Module.load env m = (m, Except.ok (), []) ∧
      (∀ m2 : Module, (Module.load env m2).2.1 = Except.ok () →
        ((Module.load env m2).1.state.loaded = true ∧
          Module.load env ((Module.load env m2).1) =
            ((Module.load env m2).1, Except.ok (), []))) := by
  have okLoaded : ∀ m2 : Module, (Module.load env m2).2.1 = Except.ok () →
      (Module.load env m2).1.state.loaded = true := by
    intro m2 hok
    cases m2 with
    | node s subs =>
      by_cases h2 : s.loaded = true
      · rw [load_eq_of_loaded env s subs h2]
        exact h2
      · have hb : s.loaded = false := by
          cases hv : s.loaded
          · rfl
          · exact absurd hv h2
        rcases hsub : loadSubs env subs with ⟨subs1, oerr, subTr⟩
        cases oerr with
        | some e =>
          rw [load_eq_of_subErr env s subs subs1 e subTr hb hsub] at hok
          rcases loadCatch_error_shape { s with loadStatus := LoadStatus.loading } e
            with ⟨e2, he2⟩
          simp only [he2] at hok
          cases hok
        | none =>
          rw [load_eq_of_subOk env s subs subs1 subTr hb hsub] at hok ⊢
          exact (loadOwn_of_ok env _ hok).1
  have key : ∀ m3 : Module, m3.state.loaded = true →
      Module.load env m3 = (m3, Except.ok (), []) := by
    intro m3 h3
    cases m3 with
    | node s subs => exact load_eq_of_loaded env s subs h3
  exact ⟨key m h, fun m2 hok => ⟨okLoaded m2 hok, key _ (okLoaded m2 hok)⟩⟩

/-- Witness for C5: a concretely loaded component; its second load is the
identity with an ok result and an empty trace. -/
theorem c5_second_load_noop_witness :
    Module.load envOk loadedModule = (loadedModule, Except.ok (), []) :=
  (c5_second_load_noop envOk loadedModule (by decide)).1

/-!
C7 — closest-ancestor query.
-/

theorem traverseClosest_eq_find (className : String) (chain : List PNode) :
    getClosestAncestorElementByClassName className chain =
      (chain.takeWhile (fun n => n.isElem)).find?
        (fun n => n.classes.contains className) := by
  induction chain with
  | nil => rfl
  | cons n rest ih =>
    simp only [getClosestAncestorElementByClassName] at ih ⊢
    simp only [traverseEachParent, List.takeWhile_cons]
    by_cases he : n.isElem = true
    · rw [if_pos he, if_pos he]
      by_cases hc : n.classes.contains className = true
      · rw [if_pos hc]
        simp only [List.find?]
        rw [hc]
        rfl
      · have hc2 : n.classes.contains className = false := by
          cases hv : n.classes.contains className
          · rfl
          · exact absurd hv hc
        rw [if_neg hc]
        simp only [List.find?]
        rw [hc2]
        exact ih
    · rw [if_neg he, if_neg he]
      rfl

/-- C7: on any parent chain (the start element first), the query returns
the first node of the element-like prefix of the chain that carries the
class, and null when no node of that prefix does; nodes at or beyond the
first non-element-like node (the document) are never consulted. -/
theorem c7_closest_ancestor (className : String) (chain : List PNode) :
    getClosestAncestorElementByClassName className chain =
      (chain.takeWhile (fun n => n.isElem)).find?
        (fun n => n.classes.contains className) :=
  traverseClosest_eq_find className chain

/-!
C6 — strict step order inside one successful load.
-/

/-- C6: within one successful load invocation the recorded trace is
exactly the concatenation of all child-load traces followed by the style
step, the data step, the template step, the mount step and the onLoad
callback, in that strict order — never interleaved or reordered. -/
theorem c6_load_step_order (env : Env) (m : Module) (hl : m.state.loaded = false)
    (hok : (Module.load env m).2.1 = Except.ok ()) :
    ∃ ns : List Node,
      getTemplateStep env m.state.options.template = Except.ok ns ∧
      (Module.load env m).2.2 =
        (loadSubs env m.subs).2.2 ++
          [Event.stylesLoad m.state.options.styles,
           Event.dataFetch m.state.options.data,
           Event.templateResolve m.state.options.template,
           Event.mountNodes ns, Event.callback "onLoad"] := by
  cases m with
  | node s subs =>
    simp only [Module.state, Module.subs] at hl hok ⊢
    rcases hsub : loadSubs env subs with ⟨subs1, oerr, subTr⟩
    cases oerr with
    | some e =>
      rw [load_eq_of_subErr env s subs subs1 e subTr hl hsub] at hok
      rcases loadCatch_error_shape { s with loadStatus := LoadStatus.loading } e with ⟨e2, he2⟩
      simp only [he2] at hok
      cases hok
    | none =>
      rw [load_eq_of_subOk env s subs subs1 subTr hl hsub] at hok ⊢
      rcases loadOwn_of_ok env { s with loadStatus := LoadStatus.loading } hok
        with ⟨hld, ns, htpl, htr, hch⟩
      refine ⟨ns, htpl, ?_⟩
      show subTr ++ (loadOwn env { s with loadStatus := LoadStatus.loading }).2.2 =
        subTr ++ [Event.stylesLoad s.options.styles, Event.dataFetch s.options.data,
          Event.templateResolve s.options.template, Event.mountNodes ns,
          Event.callback "onLoad"]
      rw [htr]

/-- Witness for C6: the trace of a concrete successful load has the
child-then-styles-then-data-then-template-then-mount shape. -/
theorem c6_load_step_order_witness :
    ∃ ns : List Node,
      getTemplateStep envOk freshModule.state.options.template = Except.ok ns ∧
      (Module.load envOk freshModule).2.2 =
        (loadSubs envOk freshModule.subs).2.2 ++
          [Event.stylesLoad freshModule.state.options.styles,
           Event.dataFetch freshModule.state.options.data,
           Event.templateResolve freshModule.state.options.template,
           Event.mountNodes ns, Event.callback "onLoad"] :=
  c6_load_step_order envOk freshModule (by decide) rfl

/-!
C4 — failure propagation of load.
-/

/-- Counterexample for C4 as stated: on a component constructed without an
element, load fails (at the mount step) yet rejects with a TypeError from
inside the error path instead of the failing step's error, and `errored`
is still false afterwards — so a load failure does not always leave
`errored` true with the same error re-raised. -/
theorem c4_counterexample :
    (Module.load envOk elLessModule2).2.1 = Except.error nullClassListErr ∧
      (Module.load envOk elLessModule2).1.state.errored = false := by
  exact ⟨rfl, rfl⟩

/-- C4 amended (restricted to components that have an element): whenever
load rejects with an error e, the error path ran with e beforehand (the
onError hook received e as the last recorded event), and the component is
left errored and unloaded; and when some child load rejects, the first
such rejection is exactly what the parent load rejects with. -/
theorem c4_load_failure_path (m : Module) (env : Env) (e0 : Elem)
    (hel : m.state.el = Option.some e0) :
    (∀ e : Err, (Module.load env m).2.1 = Except.error e →
      ((Module.load env m).1.state.errored = true ∧
       (Module.load env m).1.state.loaded = false ∧
       ∃ pre : List Event, (Module.load env m).2.2 = pre ++ [Event.onErrorCb e])) ∧
    (m.state.loaded = false →
      ∀ e : Err, (loadSubs env m.subs).2.1 = Option.some e →
        (Module.load env m).2.1 = Except.error e) := by
  cases m with
  | node s subs =>
    simp only [Module.state, Module.subs] at hel ⊢
    constructor
    · intro e herr
      by_cases h2 : s.loaded = true
      · rw [load_eq_of_loaded env s subs h2] at herr
        cases herr
      · have hb : s.loaded = false := by
          cases hv : s.loaded
          · rfl
          · exact absurd hv h2
        rcases hsub : loadSubs env subs with ⟨subs1, oerr, subTr⟩
        cases oerr with
        | some e1 =>
          rw [load_eq_of_subErr env s subs subs1 e1 subTr hb hsub] at herr ⊢
          rw [loadCatch_of_el_some { s with loadStatus := LoadStatus.loading } e1 e0 hel]
            at herr ⊢
          simp only [Except.error.injEq] at herr
          subst herr
          exact ⟨rfl, rfl, subTr, rfl⟩
        | none =>
          rw [load_eq_of_subOk env s subs subs1 subTr hb hsub] at herr ⊢
          have herr2 : (loadOwn env { s with loadStatus := LoadStatus.loading }).2.1 =
              Except.error e := herr
          rcases loadOwn_of_error env { s with loadStatus := LoadStatus.loading } e0 hel e herr2
            with ⟨her, hld, pre, htr⟩
          refine ⟨her, hld, subTr ++ pre, ?_⟩
          show subTr ++ (loadOwn env { s with loadStatus := LoadStatus.loading }).2.2 = _
          rw [htr, List.append_assoc]
    · intro hb e hsub2
      rcases hsub : loadSubs env subs with ⟨subs1, oerr, subTr⟩
      rw [hsub] at hsub2
      simp only [] at hsub2
      subst hsub2
      rw [load_eq_of_subErr env s subs subs1 e subTr hb hsub]
      rw [loadCatch_of_el_some { s with loadStatus := LoadStatus.loading } e e0 hel]

/-- Witness for C4: the spec scenario — a parent with children a and b
where a's load rejects with the error boom; the parent load rejects with
boom and the parent ends errored. -/
theorem c4_load_failure_path_witness :
    (Module.load envBadCss parentAB).2.1 = Except.error (Err.error "boom") ∧
      (Module.load envBadCss parentAB).1.state.errored = true := by
  have h := c4_load_failure_path parentAB envBadCss blankElem rfl
  have h2 := h.2 rfl (Err.error "boom") rfl
  exact ⟨h2, (h.1 (Err.error "boom") h2).1⟩

/-!
C3 — behavior without an element.
-/

/-- Counterexample for C3 as stated: destroy on a component constructed
without an element does not degrade gracefully; it throws the TypeError of
dereferencing `this.el.classList`. -/
theorem c3_counterexample :
    elLessModule.destroy.2 = Option.some nullClassListErr := by
  exact rfl

/-- C3 amended: construction without an element only logs a console error
and completes (all fields initialized); show, hide, enable and disable
degrade gracefully (flag set, callback fired, nothing thrown); but on the
element-less component load always rejects with the classList TypeError
without recording the errored flag, error() throws that TypeError with no
state change, destroy() throws, and the ancestor query without an
explicit start element throws the parentNode TypeError. -/
theorem c3_missing_element_behavior (opts : Options) (m : Module) (env : Env)
    (err : Option Err) (className : String) (elChain : List PNode)
    (hm : m.state.el = Option.none) (hl : m.state.loaded = false) :
    (Module.load env m).2.1 = Except.error nullClassListErr ∧
    (Module.load env m).1.state.errored = m.state.errored ∧
    m.destroy.2.isSome = true ∧
    (m.errorOp err).2.1 = Except.error nullClassListErr ∧
    (m.errorOp err).1 = m ∧
    m.getClosestAncestorCall className Option.none elChain = Except.error nullParentNodeErr ∧
    (Module.construct Option.none opts).2 =
      [Event.consoleError "Module error: No element was passed to constructor"] ∧
    (Module.construct Option.none opts).1.state.el = Option.none ∧
    (Module.construct Option.none opts).1.state.loaded = false ∧
    m.show.1.state.active = true ∧ m.show.1.state.el = Option.none ∧
    m.show.2 = [Event.callback "onShow"] ∧
    m.hide.1.state.active = false ∧ m.hide.2 = [Event.callback "onHide"] ∧
    m.enable.1.state.disabled = false ∧ m.enable.2 = [Event.callback "onEnable"] ∧
    m.disable.1.state.disabled = true ∧ m.disable.2 = [Event.callback "onDisable"] := by
  cases m with
  | node s subs =>
    simp only [Module.state] at hm hl ⊢
    have hload : (Module.load env (Module.node s subs)).2.1 = Except.error nullClassListErr ∧
        (Module.load env (Module.node s subs)).1.state.errored = s.errored := by
      rcases hsub : loadSubs env subs with ⟨subs1, oerr, subTr⟩
      cases oerr with
      | some e =>
        rw [load_eq_of_subErr env s subs subs1 e subTr hl hsub]
        rw [loadCatch_of_el_none { s with loadStatus := LoadStatus.loading } e hm]
        exact ⟨rfl, rfl⟩
      | none =>
        rw [load_eq_of_subOk env s subs subs1 subTr hl hsub]
        rcases loadOwn_of_el_none env { s with loadStatus := LoadStatus.loading } hm
          with ⟨hres, herrq, hldq⟩
        exact ⟨hres, herrq⟩
    have hdes : (Module.destroy (Module.node s subs)).2.isSome = true := by
      rcases hds : destroySubs subs with ⟨subs1, derr⟩
      cases derr with
      | some e =>
        rw [destroy_eq_of_subErr s subs subs1 e hds]
        rfl
      | none =>
        rw [destroy_eq_of_subOk_none s subs subs1 hds hm]
        rfl
    refine ⟨hload.1, hload.2, hdes, ?_, ?_, ?_, rfl, rfl, rfl, rfl, ?_, rfl, rfl, rfl,
      rfl, rfl, rfl, rfl⟩
    · simp [Module.errorOp, MState.errorOp, hm]
    · simp [Module.errorOp, MState.errorOp, hm]
    · simp [Module.getClosestAncestorCall, Module.state, hm]
    · simp [Module.show, MState.show, Module.state, hm]

/-- Witness for C3: the concrete element-less component's load rejects
with the classList TypeError. -/
theorem c3_missing_element_behavior_witness :
    (Module.load envOk elLessModule).2.1 = Except.error nullClassListErr :=
  (c3_missing_element_behavior defaultOptions elLessModule envOk Option.none "foo" []
    rfl rfl).1

/-!
C2 — destroy resets the lifecycle flags, but not disabled.
-/

/-- Counterexample for C2 as stated: a component whose element carried the
disabled marker at construction is disabled; destroy returns normally yet
`disabled` is still true afterwards, not false. -/
theorem c2_counterexample :
    origDisabledModule.state.disabled = true ∧
      origDisabledModule.destroy.2 = Option.none ∧
      origDisabledModule.destroy.1.state.disabled = true := by
  exact ⟨rfl, rfl, rfl⟩

/-- C2 amended: after a destroy that returns normally, loaded, active and
errored are false, the load status is notLoaded, the child map and the
mounted-node list are empty — but `disabled` keeps whatever value it had
before destroy (the source never resets it), and for an originally
disabled component the element's disabled marker is restored. -/
theorem c2_destroy_flags (m : Module) (h : m.destroy.2 = Option.none)
    (hne : m.state.options.disabledClass ≠ m.state.options.errorClass) :
    m.destroy.1.state.disabled = m.state.disabled ∧
    m.destroy.1.state.loaded = false ∧ m.destroy.1.state.active = false ∧
    m.destroy.1.state.errored = false ∧
    m.destroy.1.state.loadStatus = LoadStatus.notLoaded ∧
    m.destroy.1.subs = [] ∧ m.destroy.1.state.elChildren = [] ∧
    (m.state.origDisabled = true →
      ∃ e1 : Elem, m.destroy.1.state.el = Option.some e1 ∧
        m.state.options.disabledClass ∈ e1.classes) := by
  cases m with
  | node s subs =>
    simp only [Module.state] at h hne ⊢
    rcases hds : destroySubs subs with ⟨subs1, derr⟩
    cases derr with
    | some e =>
      rw [destroy_eq_of_subErr s subs subs1 e hds] at h
      cases h
    | none =>
      cases hel : s.el with
      | none =>
        rw [destroy_eq_of_subOk_none s subs subs1 hds hel] at h
        cases h
      | some el0 =>
        rcases destroy_fields_of_subOk_some s subs subs1 el0 hds hel
          with ⟨h1, h2, h3, h4, h5, h6, h7, h8, h9⟩
        exact ⟨h7, h4, h3, h5, h6, h2, h8, fun hod => h9 hod hne⟩

/-- Witness for C2: on the concretely originally-disabled component, after
destroy the disabled flag still holds its pre-destroy value. -/
theorem c2_destroy_flags_witness :
    origDisabledModule.destroy.1.state.disabled = origDisabledModule.state.disabled :=
  (c2_destroy_flags origDisabledModule rfl (by decide)).1

/-!
C1 — the mounted-nodes/loaded relation.
-/

theorem construct_elChildren_loaded (el : Option Elem) (opts : Options) :
    (Module.construct el opts).1.state.elChildren = [] ∧
      (Module.construct el opts).1.state.loaded = false := by
  cases el with
  | none => exact ⟨rfl, rfl⟩
  | some e1 =>
    simp only [Module.construct, MState.disable, MState.errorOp]
    by_cases h1 : e1.classes.contains opts.disabledClass = true
    · simp only [h1]
      by_cases h2 : opts.errorClass ∈ classListAdd e1.classes opts.disabledClass
      · simp [h2, Module.state, addClass]
      · simp [h2, Module.state, addClass]
    · simp only [h1]
      by_cases h2 : opts.errorClass ∈ e1.classes
      · simp [h2, Module.state]
      · simp [h2, Module.state]

/-- Counterexample for C1 as stated: construct on a blank element with the
default options (empty template) and load; the load succeeds, leaving
`loaded` true while `mountedNodes` is still empty — so mountedNodes being
empty is not equivalent to loaded being false after load(). -/
theorem c1_counterexample :
    (Module.load envOk freshModule).2.1 = Except.ok () ∧
      (Module.load envOk freshModule).1.state.loaded = true ∧
      (Module.load envOk freshModule).1.state.elChildren = [] := by
  exact ⟨rfl, rfl, rfl⟩

/-- C1 amended: after construction `mountedNodes` is empty and `loaded` is
false, and on a component holding an element every operation preserves the
weaker invariant that `mountedNodes` is nonempty only when `loaded` or
`errored` holds.  The equivalence claimed by the spec fails in both
directions: a successful load of an empty template gives loaded true with
no mounted nodes, and error() after a successful load gives loaded false
with the nodes still recorded. -/
theorem c1_mounted_invariant (el : Option Elem) (opts : Options) (m : Module) (env : Env)
    (err : Option Err) (e0 : Elem) (hel : m.state.el = Option.some e0)
    (hinv : mountedInv m.state) :
    ((Module.construct el opts).1.state.elChildren = [] ∧
      (Module.construct el opts).1.state.loaded = false) ∧
    mountedInv (Module.load env m).1.state ∧
    mountedInv m.show.1.state ∧ mountedInv m.hide.1.state ∧
    mountedInv m.enable.1.state ∧ mountedInv m.disable.1.state ∧
    mountedInv (m.errorOp err).1.state ∧
    mountedInv m.destroy.1.state := by
  refine ⟨construct_elChildren_loaded el opts, ?_, ?_, ?_, ?_, ?_, ?_, ?_⟩
  · cases m with
    | node s subs =>
      simp only [Module.state] at hel hinv
      by_cases h2 : s.loaded = true
      · rw [load_eq_of_loaded env s subs h2]
        exact hinv
      · have hb : s.loaded = false := by
          cases hv : s.loaded
          · rfl
          · exact absurd hv h2
        rcases hsub : loadSubs env subs with ⟨subs1, oerr, subTr⟩
        cases oerr with
        | some e =>
          rw [load_eq_of_subErr env s subs subs1 e subTr hb hsub]
          rw [loadCatch_of_el_some { s with loadStatus := LoadStatus.loading } e e0 hel]
          intro _
          exact Or.inr rfl
        | none =>
          rw [load_eq_of_subOk env s subs subs1 subTr hb hsub]
          cases hres : (loadOwn env { s with loadStatus := LoadStatus.loading }).2.1 with
          | error e =>
            rcases loadOwn_of_error env { s with loadStatus := LoadStatus.loading } e0 hel
              e hres with ⟨her, hld, pre, htr⟩
            intro _
            exact Or.inr her
          | ok u =>
            cases u
            rcases loadOwn_of_ok env { s with loadStatus := LoadStatus.loading } hres
              with ⟨hld, ns, htpl, htr, hch⟩
            intro _
            exact Or.inl hld
  · cases m with
    | node s subs => exact hinv
  · cases m with
    | node s subs => exact hinv
  · cases m with
    | node s subs => exact hinv
  · cases m with
    | node s subs => exact hinv
  · cases m with
    | node s subs =>
      simp only [Module.state] at hel
      rw [show Module.errorOp (Module.node s subs) err =
          (Module.node (MState.errorOp s err).1 subs, (MState.errorOp s err).2.1,
           (MState.errorOp s err).2.2) from rfl]
      rw [errorOp_of_el_some s err e0 hel]
      intro _
      exact Or.inr rfl
  · cases m with
    | node s subs =>
      simp only [Module.state] at hel hinv
      rcases hds : destroySubs subs with ⟨subs1, derr⟩
      cases derr with
      | some e =>
        rw [destroy_eq_of_subErr s subs subs1 e hds]
        exact hinv
      | none =>
        rcases destroy_fields_of_subOk_some s subs subs1 e0 hds hel
          with ⟨h1, h2, h3, h4, h5, h6, h7, h8, h9⟩
        intro hne
        exact absurd h8 hne

/-- Witness for C1: the amended invariant holds after loading the concrete
freshly constructed component. -/
theorem c1_mounted_invariant_witness :
    mountedInv (Module.load envOk freshModule).1.state :=
  (c1_mounted_invariant (Option.some blankElem) defaultOptions freshModule envOk
    Option.none blankElem rfl (fun h => absurd rfl h)).2.1

end ModuleJs
